import Mathlib

/-!
Verification development for the celo-hackathon-agent analysis service.

This file gives a shallow embedding, in Lean, of the core of the
repository: the score extractor (`extract_scores_from_markdown` in
`packages/api/app/worker.py` and `extract_scores` in
`api/app/worker.py`), the task/queue/report data model
(`api/app/db/models.py`), the analysis service operations
(`api/app/services/analysis.py`, `api/app/services/queue.py`), the
worker pipelines (`packages/api/app/worker.py` and
`api/app/worker.py`), and report publication
(`api/app/routers/reports.py`, report services).

Modelling conventions:
- Python numbers are modelled as rationals (`ℚ`); the concrete values
  appearing in the claims (integers and halves) are exactly
  representable as floats, so float rounding does not affect any
  statement proved here.
- Python dictionaries are modelled as insertion-ordered association
  lists over `String` keys.
- Raised exceptions are modelled with `Except String`/`Option`.
- The database is modelled as an explicit state record; each
  `commit()` in the source is one update of that state.
- External collaborators (repository fetcher, LLM, IPFS, json.dumps,
  URL parsing) are abstracted as an `Env` of oracle functions, as the
  spec itself treats them as black boxes.
-/

namespace CeloAgent

/-! ### Small string machinery

`extract_scores_from_markdown` scans lowercased text with regexes of
the shape `k1.*?k2.*?(\d+(?:\.\d+)?)` (or with a single keyword).
Since every atom of those patterns refuses to match a newline, a match
is always contained in one line, and Python's leftmost/lazy search is
equivalent to: take the first line in which, after the first
occurrence of `k1`, there is an occurrence of `k2` followed by a
digit; the captured number starts at the first digit after the first
occurrence of `k2` there.  `\d` is modelled as an ASCII digit. -/

/-- Does `pat` occur at the head of `s`? -/
def leadMatch : List Char → List Char → Bool
  | [], _ => true
  | _ :: _, [] => false
  | p :: ps, c :: cs => p = c && leadMatch ps cs

/-- The suffix of `s` after the first occurrence of `pat` (`pat` nonempty). -/
def afterFirst (pat : List Char) : List Char → Option (List Char)
  | [] => none
  | c :: cs =>
    if leadMatch pat (c :: cs) then some (List.drop (pat.length - 1) cs)
    else afterFirst pat cs

/-- Does `pat` occur somewhere in `s`? -/
def hasSub (pat s : List Char) : Bool := (afterFirst pat s).isSome

/-- Split a list of characters into the leading run of ASCII digits and the rest. -/
def digitRun : List Char → List Char × List Char
  | [] => ([], [])
  | c :: cs =>
    if c.isDigit then
      let p := digitRun cs
      (c :: p.1, p.2)
    else ([], c :: cs)

/-- The optional fraction part `(?:\.\d+)?` right after the integer digits. -/
def fracPart : List Char → List Char
  | '.' :: c :: cs => if c.isDigit then (digitRun (c :: cs)).1 else []
  | _ => []

/-- Numeric value of a run of ASCII digits. -/
def digitsVal (ds : List Char) : Nat :=
  ds.foldl (fun a c => a * 10 + (c.toNat - '0'.toNat)) 0

/-- Value of a captured numeral `ds` `.` `fs` as a rational. -/
def capturedVal (ds fs : List Char) : ℚ :=
  (digitsVal ds : ℚ) + (if fs.isEmpty then 0 else (digitsVal fs : ℚ) / ((10 : ℚ) ^ fs.length))

/-- The first `\d+(?:\.\d+)?` numeral in `s`, if any. -/
def numAfter : List Char → Option ℚ
  | [] => none
  | c :: cs =>
    if c.isDigit then
      let p := digitRun (c :: cs)
      some (capturedVal p.1 (fracPart p.2))
    else numAfter cs

/-- Lazy left-to-right match of a keyword chain inside one line,
returning the captured number. -/
def matchKeys : List (List Char) → List Char → Option ℚ
  | [], line => numAfter line
  | k :: ks, line => (afterFirst k line).bind (matchKeys ks)

/-- Split on newline characters (Python lines, for patterns whose `.` cannot cross a newline). -/
def splitNl : List Char → List (List Char)
  | [] => [[]]
  | c :: cs =>
    if c = '\n' then [] :: splitNl cs
    else
      match splitNl cs with
      | [] => [[c]]
      | l :: ls => (c :: l) :: ls

/-- First line producing a match for the keyword chain. -/
def firstLineMatch (ks : List (List Char)) : List (List Char) → Option ℚ
  | [] => none
  | l :: ls =>
    match matchKeys ks l with
    | some v => some v
    | none => firstLineMatch ks ls

/-- First pattern in the category's pattern list that matches anywhere
in the text (the regex capture `\d+(?:\.\d+)?` always converts with
`float`, so Python's `try/except/continue` around the conversion never
skips a pattern). -/
def tryPatterns (pl : List (List String)) (lines : List (List Char)) : Option ℚ :=
  match pl with
  | [] => none
  | p :: ps =>
    match firstLineMatch (p.map String.toList) lines with
    | some v => some v
    | none => tryPatterns ps lines

/-- The pattern table of `extract_scores_from_markdown`
(`packages/api/app/worker.py`, lines 300-310), with each regex
`k1.*?k2.*?(\d+(?:\.\d+)?)` represented by its keyword chain. -/
def scorePatterns : List (String × List (List String)) :=
  [ ("overall", [["overall", "score"], ["total", "score"], ["final", "score"]]),
    ("code_quality", [["code", "quality"], ["quality", "score"]]),
    ("maintainability", [["maintainability"], ["maintenance"]]),
    ("documentation", [["documentation"], ["docs", "score"]]),
    ("performance", [["performance"], ["speed", "score"]]) ]

/-- One category entry per table row that has a matching pattern, in
table order (Python dict insertion order). -/
def extractCats (lines : List (List Char)) : List (String × List (List String)) → List (String × ℚ)
  | [] => []
  | (cat, pl) :: rest =>
    match tryPatterns pl lines with
    | some v => (cat, v) :: extractCats lines rest
    | none => extractCats lines rest

/-- Embedding of `extract_scores_from_markdown`
(`packages/api/app/worker.py`, lines 287-325): lowercase the text,
then for each category take the first capture of the first matching
pattern. -/
def extract_scores_from_markdown (markdown_text : String) : List (String × ℚ) :=
  extractCats (splitNl (markdown_text.toList.map Char.toLower)) scorePatterns

/-! ### Python values and the legacy dict-based extractor -/

/-- A fragment of Python's value universe, large enough for the
`options` bag and the analysis results the workers handle. -/
inductive PyVal where
  | num : ℚ → PyVal
  | str : String → PyVal
  | dict : List (String × PyVal) → PyVal
  | pyNone : PyVal
  | other : PyVal

/-- Association-list lookup (Python `d[k]` / `k in d`). -/
def alookup {α : Type} (k : String) : List (String × α) → Option α
  | [] => none
  | (k', v) :: rest => if k' = k then some v else alookup k rest

/-- Update the value at an existing key, keeping order; no-op if the key is absent. -/
def updAssoc {α : Type} (k : String) (v : α) : List (String × α) → List (String × α)
  | [] => []
  | (k', v') :: rest => if k' = k then (k, v) :: rest else (k', v') :: updAssoc k v rest

/-- Insert or update a key (Python `d[k] = v`). -/
def putAssoc {α : Type} (k : String) (v : α) (l : List (String × α)) : List (String × α) :=
  if (alookup k l).isSome then updAssoc k v l else l ++ [(k, v)]

/-- Remove a key. -/
def eraseAssoc {α : Type} (k : String) : List (String × α) → List (String × α)
  | [] => []
  | (k', v') :: rest => if k' = k then rest else (k', v') :: eraseAssoc k rest

/-- Python `sub.get("score", 0)`. -/
def getScoreField (d : List (String × PyVal)) : PyVal :=
  (alookup "score" d).getD (.num 0)

/-- The category list of the legacy extractor (`api/app/worker.py`, line 160). -/
def categoriesLegacy : List String :=
  ["readability", "standards", "complexity", "testing", "security"]

/-- Category collection loop of the legacy `extract_scores`
(`api/app/worker.py`, lines 160-163). -/
def catScores (entries : List (String × PyVal)) : List (String × PyVal) :=
  categoriesLegacy.foldl
    (fun acc cat =>
      match alookup cat entries with
      | some (.dict sub) => acc ++ [(cat, getScoreField sub)]
      | _ => acc)
    []

/-- Sum of a list of Python values; `none` models the `TypeError`
raised by `sum` on non-numeric values. -/
def sumNums : List PyVal → Option ℚ
  | [] => some 0
  | .num q :: rest => (sumNums rest).map (fun s => q + s)
  | _ => none

/-- Embedding of the legacy `extract_scores` (`api/app/worker.py`,
lines 144-172).  The input is an arbitrary Python value; `Except`
models the `TypeError` that `sum(scores.values())` raises when a
collected score value is not numeric. -/
def extract_scores (analysis : PyVal) : Except String (List (String × PyVal)) :=
  match analysis with
  | .dict entries =>
    let scores := catScores entries
    match alookup "overall" entries with
    | some (.dict sub) => .ok (scores ++ [("overall", getScoreField sub)])
    | _ =>
      if scores.length > 0 then
        match sumNums (scores.map Prod.snd) with
        | some s => .ok (scores ++ [("overall", .num (s / (scores.length : ℚ)))])
        | none => .error "TypeError: unsupported operand type for sum"
      else .ok scores
  | _ => .ok []

/-! ### Python float() and the temperature coercions -/

/-- Parse an unsigned decimal numeral `d+ | d+.d* | .d+`. -/
def parseUnsigned (cs : List Char) : Option ℚ :=
  let p := digitRun cs
  match p.2 with
  | [] => if p.1.isEmpty then none else some (digitsVal p.1)
  | '.' :: rest2 =>
    let q := digitRun rest2
    if q.2.isEmpty && !(p.1.isEmpty && q.1.isEmpty) then
      some ((digitsVal p.1 : ℚ) + (digitsVal q.1 : ℚ) / ((10 : ℚ) ^ q.1.length))
    else none
  | _ => none

/-- Model of Python `float` applied to a string: surrounding spaces,
an optional sign and a plain decimal numeral (scientific notation and
the infinity/nan spellings are outside the model). -/
def pyFloatOfString (v : String) : Option ℚ :=
  let cs := v.toList.dropWhile (fun c => c = ' ')
  let cs := (cs.reverse.dropWhile (fun c => c = ' ')).reverse
  match cs with
  | '+' :: rest => parseUnsigned rest
  | '-' :: rest => (parseUnsigned rest).map Neg.neg
  | _ => parseUnsigned cs

/-- Model of Python `float()` on a value: numbers pass through,
strings are parsed, everything else raises `TypeError`. -/
def pyFloat : PyVal → Except String ℚ
  | .num q => .ok q
  | .str v =>
    match pyFloatOfString v with
    | some q => .ok q
    | none => .error ("could not convert string to float: " ++ v)
  | _ => .error "float() argument must be a string or a real number"

/-- Embedding of the guarded temperature coercion of the packages
worker (`packages/api/app/worker.py`, lines 117-125): `None` and the
empty string fall back to `0.2`, then `float()` with a `0.2` fallback
on `ValueError`/`TypeError`. -/
def coerce_temperature (opts : List (String × PyVal)) (settingsTemp : ℚ) : ℚ :=
  let tv := (alookup "temperature" opts).getD (.num settingsTemp)
  match tv with
  | .pyNone => 0.2
  | .str "" => 0.2
  | v =>
    match pyFloat v with
    | .ok q => q
    | .error _ => 0.2

/-- Embedding of the unguarded temperature conversion of the legacy
worker (`api/app/worker.py`, line 84): a bare
`float(options.get("temperature", settings.TEMPERATURE))` whose
exception propagates. -/
def legacy_temperature (opts : List (String × PyVal)) (settingsTemp : ℚ) : Except String ℚ :=
  pyFloat ((alookup "temperature" opts).getD (.num settingsTemp))

/-! ### Data model

Task and report records (`api/app/db/models.py`), the queue job
states, and the database state.  Timestamps are abstracted to the
state's `now` tick. -/

inductive TaskStatus where
  | pending
  | in_progress
  | completed
  | failed
deriving DecidableEq, Repr

/-- The `AnalysisTask` row (`api/app/db/models.py`).  `analysis_type`
is the column added by the packages app. -/
structure Task where
  user_id : String
  github_url : String
  status : TaskStatus
  options : List (String × PyVal)
  progress : Nat
  error_message : Option String
  completed_at : Option Nat
  analysis_type : PyVal

/-- The `Report` row.  The packages worker sets the report id equal to
the task id, so reports are keyed by task id here.  `content` is a
Python value (the packages worker stores a dict with a `markdown` key,
the legacy worker stores the raw analysis value).  `analysis_type` is
`none` for reports written by the legacy worker, which has no such
column. -/
structure Report where
  user_id : String
  github_url : String
  repo_name : String
  content : PyVal
  scores : List (String × PyVal)
  analysis_type : Option PyVal
  ipfs_hash : Option String
  published_at : Option Nat
  created_at : Nat

/-- RQ job states as far as `QueueService` observes them. -/
inductive JobStatus where
  | queued
  | started
  | finished
  | canceled
deriving DecidableEq, Repr

/-- The persistent state: task rows, report rows (keyed by task id),
and the queue's job registry (job id = task id). -/
structure SysState where
  tasks : List (String × Task)
  reports : List (String × Report)
  jobs : List (String × JobStatus)
  now : Nat

/-- The configuration values the pipelines read
(`api/app/config.py`, `packages/api/app/config.py`); `TEMPERATURE` is
declared as `float` there, so it is a number here. -/
structure Settings where
  GOOGLE_API_KEY : String
  DEFAULT_MODEL : String
  TEMPERATURE : ℚ
  GITHUB_TOKEN : String

/-- Data returned by the repository fetch adapter: the `repo_data`
dict with its `content` string (`""` models missing/empty content,
which Python treats as falsy) and metrics. -/
structure RepoData where
  content : String
  metrics : List (String × ℚ)

/-- External collaborators, abstracted as oracles exactly at the
interfaces the spec declares external: `fetch_single_repository`,
`analyze_single_repository`, `extract_repo_name_from_url`,
`json.dumps`, and the IPFS service.  `failCommit` models the store
being unreachable while the worker's error handler records a failure
(the `except` around the handler's own commit). -/
structure Env where
  fetch : String → Except String (Option String × Option RepoData)
  analyze : String → String → PyVal → PyVal → ℚ → Except String PyVal
  repoNameFromUrl : String → String
  jsonDumps : PyVal → Option String
  ipfs : PyVal → Option String
  failCommit : Bool

/-- Instrumentation of one worker run: how many times the fetch and
analysis adapters were invoked, and the temperature the analysis
adapter received. -/
structure WorkerTrace where
  fetchCalls : Nat
  analyzeCalls : Nat
  analyzeTemp : Option ℚ
deriving DecidableEq, Repr

/-! ### Queue and analysis service operations
(`api/app/services/queue.py`, `api/app/services/analysis.py`) -/

/-- `QueueService.cancel_job` (`api/app/services/queue.py`, lines
72-88): cancel only a still-`queued` job, otherwise return `False`
and do nothing. -/
def cancel_job (tid : String) (s : SysState) : SysState × Bool :=
  match alookup tid s.jobs with
  | some .queued => ({ s with jobs := updAssoc tid .canceled s.jobs }, true)
  | _ => (s, false)

/-- `AnalysisService.get_task`: lookup filtered by owner. -/
def get_task (tid uid : String) (s : SysState) : Option Task :=
  match alookup tid s.tasks with
  | some t => if t.user_id = uid then some t else none
  | none => none

/-- `AnalysisService.cancel_task` (`api/app/services/analysis.py`,
lines 124-157): refuse on missing or terminal tasks; otherwise try the
queue-level cancel (result ignored), then mark the task `failed` with
`"Canceled by user"`. -/
def cancel_task (tid uid : String) (s : SysState) : SysState × Option Task :=
  match get_task tid uid s with
  | none => (s, none)
  | some t =>
    if t.status = .completed ∨ t.status = .failed then (s, none)
    else
      let s1 := (cancel_job tid s).1
      let t' := { t with status := .failed, error_message := some "Canceled by user" }
      ({ s1 with tasks := updAssoc tid t' s1.tasks }, some t')

/-- `AnalysisService.delete_task` (`api/app/services/analysis.py`,
lines 159-185): try to cancel a pending/in-progress job first, then
delete the row (the report row goes with it via `ON DELETE CASCADE`). -/
def delete_task (tid uid : String) (s : SysState) : SysState × Bool :=
  match get_task tid uid s with
  | none => (s, false)
  | some t =>
    let s1 := if t.status = .pending ∨ t.status = .in_progress then (cancel_job tid s).1 else s
    ({ s1 with tasks := eraseAssoc tid s1.tasks, reports := eraseAssoc tid s1.reports }, true)

/-- Option defaulting in `AnalysisService.submit_analysis`
(`api/app/services/analysis.py`, lines 45-56). -/
def submit_defaults (st : Settings) (opts : List (String × PyVal)) : List (String × PyVal) :=
  let o1 := if (alookup "model" opts).isSome then opts
            else opts ++ [("model", .str st.DEFAULT_MODEL)]
  if (alookup "temperature" o1).isSome then o1
  else o1 ++ [("temperature", .num st.TEMPERATURE)]

/-- `AnalysisService.submit_analysis` plus
`QueueService.enqueue_analysis`: create a `pending` task with progress
0 and enqueue a job under the task's id.  Task ids are fresh UUIDs in
the source; the guard on an existing id models that freshness. -/
def submit_analysis (st : Settings) (uid tid url : String)
    (opts : List (String × PyVal)) (s : SysState) : SysState :=
  if (alookup tid s.tasks).isSome then s
  else
    let o := submit_defaults st opts
    let t : Task :=
      { user_id := uid, github_url := url, status := .pending, options := o,
        progress := 0, error_message := none, completed_at := none,
        analysis_type := (alookup "analysis_type" o).getD (.str "fast") }
    { s with tasks := s.tasks ++ [(tid, t)], jobs := putAssoc tid .queued s.jobs }

/-! ### The packages worker pipeline
(`packages/api/app/worker.py`, `analyze_repository_async`, lines 32-252) -/

/-- The repo-name fallback (`if not repo_name: repo_name =
extract_repo_name_from_url(github_url)`); `None` and the empty string
are falsy. -/
def resolve_repo_name (env : Env) (url : String) (rname : Option String) : String :=
  match rname with
  | some n => if n = "" then env.repoNameFromUrl url else n
  | none => env.repoNameFromUrl url

/-- The message of the content-check failure
(`packages/api/app/worker.py`, lines 103-106), with the digest
truncated to 200 characters. -/
def fetch_content_err (code_digest : String) : String :=
  "Failed to fetch repository content: " ++
    (if code_digest = "" then "No content" else code_digest.take 200)

/-- The claim step: transition to `in_progress`, progress 10. -/
def claimTask (t : Task) : Task :=
  { t with status := .in_progress, progress := 10 }

/-- State after the claim step's commit. -/
def claimState (tid : String) (t : Task) (s : SysState) : SysState :=
  { s with tasks := updAssoc tid (claimTask t) s.tasks }

/-- Model resolution (`packages/api/app/worker.py`, lines 115 and
129-134): read `model` from the options, then override it whenever
`analysis_type` is the string `"fast"` or `"deep"` (both map to the
same model in the source).  Returns the model and the raw
`analysis_type` value (defaulted to `"fast"`). -/
def resolve_model (opts : List (String × PyVal)) (st : Settings) : PyVal × PyVal :=
  let model0 := (alookup "model" opts).getD (.str st.DEFAULT_MODEL)
  let a := (alookup "analysis_type" opts).getD (.str "fast")
  let m := match a with
    | .str v =>
      if v = "fast" then PyVal.str "gemini-2.5-flash"
      else if v = "deep" then PyVal.str "gemini-2.5-flash"
      else model0
    | _ => model0
  (m, a)

/-- Prompt resolution (`packages/api/app/worker.py`, lines 142-153):
append `.txt` when missing and prepend the shared prompts directory
for bare names.  A non-string `prompt` option makes `.endswith` raise
`AttributeError`, which the outer handler catches. -/
def resolve_prompt (opts : List (String × PyVal)) : Except String String :=
  match (alookup "prompt" opts).getD (.str "default") with
  | .str p =>
    let p1 := if p.endsWith ".txt" then p else p ++ ".txt"
    .ok (if p1.toList.contains '/' then p1 else "config/prompts/" ++ p1)
  | _ => .error "AttributeError: object has no attribute endswith"

/-- Conversion of the analysis result to markdown text
(`packages/api/app/worker.py`, lines 184-203).  A non-string
`raw_text`/`raw_markdown` value reaches `.lower()` inside
`extract_scores_from_markdown` and raises `AttributeError`; the
fallback branch serializes the value with `json.dumps` and degrades to
a fixed error string when that raises. -/
def to_analysis_text (env : Env) (analysis : PyVal) : Except String String :=
  match analysis with
  | .str t => .ok t
  | .dict d =>
    match alookup "raw_text" d with
    | some (.str t) => .ok t
    | some _ => .error "AttributeError: object has no attribute lower"
    | none =>
      match alookup "raw_markdown" d with
      | some (.str t) => .ok t
      | some _ => .error "AttributeError: object has no attribute lower"
      | none =>
        match env.jsonDumps (.dict d) with
        | some j => .ok ("Error: Received JSON instead of markdown:\n```json\n" ++ j ++ "\n```")
        | none => .ok "Error: Failed to generate report. Please try again."
  | v =>
    match env.jsonDumps v with
    | some j => .ok ("Error: Received JSON instead of markdown:\n```json\n" ++ j ++ "\n```")
    | none => .ok "Error: Failed to generate report. Please try again."

/-- Body of `analyze_repository_async` after the claim step
(`packages/api/app/worker.py`, lines 65-233), threading the ORM task
object and committing at the points the source commits.  Returns the
state reached, the adapter trace, and the raised exception's message
if any.  The duplicate-report branch models the unique-key violation
raised by the final commit when a report for the task already
exists. -/
def worker_body (env : Env) (st : Settings) (tid url : String)
    (opts : List (String × PyVal)) (task1 : Task) (s1 : SysState) :
    SysState × WorkerTrace × Option String :=
  match env.fetch url with
  | .error e => (s1, ⟨1, 0, none⟩, some e)
  | .ok (rname, rdata) =>
    match rdata with
    | none => (s1, ⟨1, 0, none⟩, some ("Failed to fetch repository: " ++ url))
    | some rd =>
      if rd.content = "" then (s1, ⟨1, 0, none⟩, some ("Failed to fetch repository: " ++ url))
      else
        let repo_name := resolve_repo_name env url rname
        let task2 := { task1 with progress := 40 }
        let s2 := { s1 with tasks := updAssoc tid task2 s1.tasks }
        let code_digest := rd.content
        if code_digest = "" ∨ hasSub "Error fetching repository".toList code_digest.toList then
          (s2, ⟨1, 0, none⟩, some (fetch_content_err code_digest))
        else if st.GOOGLE_API_KEY = "" ∨ st.GOOGLE_API_KEY = "your_gemini_api_key_here" then
          (s2, ⟨1, 0, none⟩,
            some "GOOGLE_API_KEY is not configured. Please set a valid Gemini API key in your .env file.")
        else
          let temperature := coerce_temperature opts st.TEMPERATURE
          let ma := resolve_model opts st
          let task3 := { task2 with analysis_type := ma.2 }
          let s3 := { s2 with tasks := updAssoc tid task3 s2.tasks }
          match resolve_prompt opts with
          | .error e => (s3, ⟨1, 0, none⟩, some e)
          | .ok prompt_path =>
            match env.analyze repo_name code_digest (.str prompt_path) ma.1 temperature with
            | .error e => (s3, ⟨1, 1, some temperature⟩, some ("LLM analysis failed: " ++ e))
            | .ok analysis =>
              let task4 := { task3 with progress := 80 }
              let s4 := { s3 with tasks := updAssoc tid task4 s3.tasks }
              match to_analysis_text env analysis with
              | .error e => (s4, ⟨1, 1, some temperature⟩, some e)
              | .ok analysis_text =>
                let scores := (extract_scores_from_markdown analysis_text).map
                  (fun p => (p.1, PyVal.num p.2))
                if (alookup tid s4.reports).isSome then
                  (s4, ⟨1, 1, some temperature⟩, some "IntegrityError: duplicate key value in reports")
                else
                  let report : Report :=
                    { user_id := task1.user_id, github_url := url, repo_name := repo_name,
                      content := .dict [("markdown", .str analysis_text)], scores := scores,
                      analysis_type := some ma.2, ipfs_hash := none, published_at := none,
                      created_at := s4.now }
                  let task5 :=
                    { task4 with
                      status := .completed, progress := 100, completed_at := some s4.now }
                  ({ s4 with
                     tasks := updAssoc tid task5 s4.tasks,
                     reports := s4.reports ++ [(tid, report)] },
                   ⟨1, 1, some temperature⟩, none)

/-- Embedding of `analyze_repository_async`
(`packages/api/app/worker.py`, lines 32-252): silent no-op when the
task row is gone; claim step; body; and the single outer handler that
re-loads the task and records the failure, swallowing its own commit
errors (`failCommit`). -/
def analyze_repository_async (env : Env) (st : Settings) (tid url : String)
    (opts : List (String × PyVal)) (s : SysState) : SysState × WorkerTrace :=
  match alookup tid s.tasks with
  | none => (s, ⟨0, 0, none⟩)
  | some task =>
    let s1 := claimState tid task s
    match worker_body env st tid url opts (claimTask task) s1 with
    | (s2, tr, none) => (s2, tr)
    | (s2, tr, some e) =>
      if env.failCommit then (s2, tr)
      else
        match alookup tid s2.tasks with
        | none => (s2, tr)
        | some t2 =>
          ({ s2 with tasks :=
             updAssoc tid { t2 with status := .failed, error_message := some e } s2.tasks },
           tr)

/-! ### The legacy worker pipeline (`api/app/worker.py`, lines 30-142) -/

/-- Body of the legacy `analyze_repository` after the claim step: no
content-marker or API-key validation, an unguarded
`float(options.get("temperature", ...))`, the prompt and model option
values passed through as-is, and the dict-based `extract_scores`. -/
def legacy_worker_body (env : Env) (st : Settings) (tid url : String)
    (opts : List (String × PyVal)) (task1 : Task) (s1 : SysState) :
    SysState × WorkerTrace × Option String :=
  match env.fetch url with
  | .error e => (s1, ⟨1, 0, none⟩, some e)
  | .ok (rname, rdata) =>
    match rdata with
    | none => (s1, ⟨1, 0, none⟩, some ("Failed to fetch repository: " ++ url))
    | some rd =>
      if rd.content = "" then (s1, ⟨1, 0, none⟩, some ("Failed to fetch repository: " ++ url))
      else
        let repo_name := resolve_repo_name env url rname
        let task2 := { task1 with progress := 40 }
        let s2 := { s1 with tasks := updAssoc tid task2 s1.tasks }
        match legacy_temperature opts st.TEMPERATURE with
        | .error e => (s2, ⟨1, 0, none⟩, some e)
        | .ok temperature =>
          let model := (alookup "model" opts).getD (.str st.DEFAULT_MODEL)
          let prompt := (alookup "prompt" opts).getD (.str "prompts/default.txt")
          match env.analyze repo_name rd.content prompt model temperature with
          | .error e => (s2, ⟨1, 1, some temperature⟩, some e)
          | .ok analysis =>
            let task3 := { task2 with progress := 80 }
            let s3 := { s2 with tasks := updAssoc tid task3 s2.tasks }
            match extract_scores analysis with
            | .error e => (s3, ⟨1, 1, some temperature⟩, some e)
            | .ok scores =>
              if (alookup tid s3.reports).isSome then
                (s3, ⟨1, 1, some temperature⟩, some "IntegrityError: duplicate key value in reports")
              else
                let report : Report :=
                  { user_id := task1.user_id, github_url := url, repo_name := repo_name,
                    content := analysis, scores := scores, analysis_type := none,
                    ipfs_hash := none, published_at := none, created_at := s3.now }
                let task4 :=
                  { task3 with
                    status := .completed, progress := 100, completed_at := some s3.now }
                ({ s3 with
                   tasks := updAssoc tid task4 s3.tasks,
                   reports := s3.reports ++ [(tid, report)] },
                 ⟨1, 1, some temperature⟩, none)

/-- Embedding of the legacy `analyze_repository` (`api/app/worker.py`,
lines 30-142), with the same claim step and outer handler shape as the
packages pipeline. -/
def legacy_analyze_repository (env : Env) (st : Settings) (tid url : String)
    (opts : List (String × PyVal)) (s : SysState) : SysState × WorkerTrace :=
  match alookup tid s.tasks with
  | none => (s, ⟨0, 0, none⟩)
  | some task =>
    let s1 := claimState tid task s
    match legacy_worker_body env st tid url opts (claimTask task) s1 with
    | (s2, tr, none) => (s2, tr)
    | (s2, tr, some e) =>
      if env.failCommit then (s2, tr)
      else
        match alookup tid s2.tasks with
        | none => (s2, tr)
        | some t2 =>
          ({ s2 with tasks :=
             updAssoc tid { t2 with status := .failed, error_message := some e } s2.tasks },
           tr)

/-! ### Report publication
(`api/app/routers/reports.py`, `publish_report`, lines 294-353;
`api/app/services/report.py` / `packages/api/app/services/report.py`,
`publish_to_ipfs`) -/

/-- The `ReportSummary` the publish endpoint returns. -/
structure ReportSummary where
  task_id : String
  github_url : String
  repo_name : String
  created_at : Nat
  ipfs_hash : Option String
  published_at : Option Nat
  scores : List (String × PyVal)

/-- `ReportService.get_report`: lookup filtered by owner. -/
def get_report (rid uid : String) (s : SysState) : Option Report :=
  match alookup rid s.reports with
  | some r => if r.user_id = uid then some r else none
  | none => none

/-- `ReportService.publish_to_ipfs`: publish the content, and on
success store the returned hash and the publication timestamp; on an
IPFS failure return `None` without touching the row.  Returns the new
state, the hash, and the (possibly updated) ORM report object. -/
def publish_to_ipfs (env : Env) (rid : String) (r : Report) (s : SysState) :
    SysState × Option String × Report :=
  match env.ipfs r.content with
  | none => (s, none, r)
  | some h =>
    let r' := { r with ipfs_hash := some h, published_at := some s.now }
    ({ s with reports := updAssoc rid r' s.reports }, some h, r')

/-- Summary built by the publish endpoint from the report row. -/
def summaryOf (rid : String) (r : Report) : ReportSummary :=
  { task_id := rid, github_url := r.github_url, repo_name := r.repo_name,
    created_at := r.created_at, ipfs_hash := r.ipfs_hash,
    published_at := r.published_at, scores := r.scores }

/-- Embedding of the `publish_report` endpoint
(`api/app/routers/reports.py`, lines 294-353): 404 when the report is
missing (`none` result); when `ipfs_hash` is already set, return the
summary without calling the IPFS service; otherwise publish and
summarize the updated object.  The final component records whether the
IPFS service was invoked.  (The source's `scores if not None` guard is
dead here because `scores` is modelled non-nullable, as both workers
always write it.) -/
def publish_report (env : Env) (tid uid : String) (s : SysState) :
    SysState × Option ReportSummary × Bool :=
  match get_report tid uid s with
  | none => (s, none, false)
  | some r =>
    match r.ipfs_hash with
    | some _ => (s, some (summaryOf tid r), false)
    | none =>
      let p := publish_to_ipfs env tid r s
      (p.1, some (summaryOf tid p.2.2), true)

/-- The hash carried by a publish response. -/
def hashOfRes (o : Option ReportSummary) : Option String :=
  o.bind (fun r => r.ipfs_hash)

/-! ### Operations and reachability -/

/-- The operations of the claims: submission, a worker run (packages
pipeline), cancellation and deletion. -/
inductive Op where
  | submit (st : Settings) (uid tid url : String) (opts : List (String × PyVal))
  | worker (env : Env) (st : Settings) (tid url : String) (opts : List (String × PyVal))
  | cancel (tid uid : String)
  | delete (tid uid : String)

/-- One operation's effect on the state. -/
def step (s : SysState) : Op → SysState
  | .submit st uid tid url opts => submit_analysis st uid tid url opts s
  | .worker env st tid url opts => (analyze_repository_async env st tid url opts s).1
  | .cancel tid uid => (cancel_task tid uid s).1
  | .delete tid uid => (delete_task tid uid s).1

/-- The empty store. -/
def initState : SysState := ⟨[], [], [], 0⟩

/-- Run a sequence of operations from the empty store. -/
def runOps (ops : List Op) : SysState := ops.foldl step initState

/-- A state is reachable when some operation sequence produces it. -/
def Reachable (s : SysState) : Prop := ∃ ops, runOps ops = s

/-- The per-task property of claim C1 exactly as stated:
`progress = 100` iff `completed`, and `error_message` non-null iff
`failed`. -/
def C1ClaimInv (s : SysState) : Prop :=
  ∀ p ∈ s.tasks,
    ((p : String × Task).2.progress = 100 ↔ p.2.status = .completed) ∧
    (p.2.error_message ≠ none ↔ p.2.status = .failed)

/-- The per-task property that actually holds: the progress/completed
equivalence, and `failed` implying a non-null `error_message` (the
converse fails because completion never clears an old message). -/
def TaskOK (t : Task) : Prop :=
  (t.progress = 100 ↔ t.status = .completed) ∧ (t.status = .failed → t.error_message ≠ none)

/-- All rows of a task table satisfy `TaskOK`. -/
def TasksOK (l : List (String × Task)) : Prop :=
  ∀ p ∈ l, TaskOK (p : String × Task).2

/-- The invariant that every reachable state satisfies. -/
def C1Inv (s : SysState) : Prop := TasksOK s.tasks

/-! ### Concrete fixtures for counterexamples and witnesses -/

/-- A configuration with a valid API key and integral temperature. -/
def st0 : Settings :=
  { GOOGLE_API_KEY := "k", DEFAULT_MODEL := "m", TEMPERATURE := 1, GITHUB_TOKEN := "" }

/-- An environment whose fetch returns no repository data. -/
def envFetchFail : Env :=
  { fetch := fun _ => .ok (none, none),
    analyze := fun _ _ _ _ _ => .error "llm unavailable",
    repoNameFromUrl := fun _ => "repo",
    jsonDumps := fun _ => none,
    ipfs := fun _ => none,
    failCommit := false }

/-- An environment whose fetch raises. -/
def envFetchRaise : Env :=
  { envFetchFail with fetch := fun _ => .error "boom" }

/-- An environment where every adapter call succeeds; the analysis
text matches none of the score patterns. -/
def envAllOk : Env :=
  { fetch := fun _ => .ok (some "repo", some ⟨"print hello", []⟩),
    analyze := fun _ _ _ _ _ => .ok (.str "analysis finished cleanly"),
    repoNameFromUrl := fun _ => "repo",
    jsonDumps := fun _ => none,
    ipfs := fun _ => some "QmHash1",
    failCommit := false }

/-- Submit, fail the first worker run on fetch, then re-run the worker
with everything succeeding: the second run completes the task without
clearing the first run's `error_message`. -/
def c1ops : List Op :=
  [ .submit st0 "u" "t1" "url1" [],
    .worker envFetchFail st0 "t1" "url1" [],
    .worker envAllOk st0 "t1" "url1" [] ]

/-- Submit and complete a task: a terminal, successfully completed state. -/
def c7ops : List Op :=
  [ .submit st0 "u" "t1" "url1" [],
    .worker envAllOk st0 "t1" "url1" [] ]

/-- The state with exactly one freshly submitted task. -/
def sSub : SysState := runOps [.submit st0 "u" "t1" "url1" []]

/-- The submitted task row of `sSub`. -/
def subTask : Task :=
  { user_id := "u", github_url := "url1", status := .pending,
    options := submit_defaults st0 [], progress := 0, error_message := none,
    completed_at := none, analysis_type := .str "fast" }

/-- A state whose queue job for `t1` has already started. -/
def sStarted : SysState :=
  { tasks := [("t1", { subTask with status := .in_progress, progress := 10 })],
    reports := [], jobs := [("t1", .started)], now := 0 }

/-- An already published report row. -/
def pubReport : Report :=
  { user_id := "u", github_url := "url1", repo_name := "repo",
    content := .dict [("markdown", .str "analysis finished cleanly")],
    scores := [], analysis_type := some (.str "fast"),
    ipfs_hash := some "QmOld", published_at := some 0, created_at := 0 }

/-- A state holding one already published report. -/
def sPub : SysState := { tasks := [], reports := [("t1", pubReport)], jobs := [], now := 0 }

/-- The task row produced by `c1ops`: completed by the successful
re-run, with the first run's error message still attached. -/
def c1task : Task :=
  { user_id := "u", github_url := "url1", status := .completed,
    options := submit_defaults st0 [], progress := 100,
    error_message := some "Failed to fetch repository: url1",
    completed_at := some 0, analysis_type := .str "fast" }

/-- The task row produced by `c7ops`: cleanly completed. -/
def c7task : Task :=
  { user_id := "u", github_url := "url1", status := .completed,
    options := submit_defaults st0 [], progress := 100,
    error_message := none, completed_at := some 0, analysis_type := .str "fast" }

/-- The analysis dict of claim C4's example, as the legacy extractor
receives it: category sub-dicts with numeric scores and no overall
entry. -/
def c4entries : List (String × PyVal) :=
  [("security", .dict [("score", .num 4)]), ("testing", .dict [("score", .num 6)])]

/-- No overall sub-dict in an analysis dict (the guard of the legacy
extractor's mean-synthesis branch). -/
def noOverallDict (entries : List (String × PyVal)) : Prop :=
  ∀ d, alookup "overall" entries ≠ some (.dict d)

/-! ## Association-list lemmas -/

theorem alookup_updAssoc {α : Type} (k j : String) (v : α) (l : List (String × α)) :
    alookup j (updAssoc k v l) =
      if j = k then (alookup k l).map (fun _ => v) else alookup j l := by
  induction l with
  | nil => simp [alookup, updAssoc]
  | cons hd tl ih =>
    obtain ⟨k', v'⟩ := hd
    by_cases h1 : k' = k
    · subst h1
      by_cases h2 : k' = j
      · subst h2; simp [alookup, updAssoc]
      · simp [alookup, updAssoc, h2, Ne.symm h2]
    · by_cases h2 : k' = j
      · subst h2
        simp [alookup, updAssoc, h1, Ne.symm h1]
      · simp [alookup, updAssoc, h1, h2, ih]

theorem alookup_updAssoc_self {α : Type} {k : String} {v : α} {l : List (String × α)}
    {u : α} (h : alookup k l = some u) : alookup k (updAssoc k v l) = some v := by
  rw [alookup_updAssoc]; simp [h]

theorem alookup_mem {α : Type} {j : String} {u : α} :
    ∀ {l : List (String × α)}, alookup j l = some u → (j, u) ∈ l := by
  intro l
  induction l with
  | nil => intro h; simp [alookup] at h
  | cons hd tl ih =>
    obtain ⟨k', v'⟩ := hd
    intro h
    by_cases h1 : k' = j
    · subst h1
      simp [alookup] at h
      subst h
      exact List.mem_cons_self _ _
    · simp [alookup, h1] at h
      exact List.mem_cons_of_mem _ (ih h)

theorem mem_updAssoc {α : Type} {k : String} {v : α} :
    ∀ {l : List (String × α)} (p : String × α), p ∈ updAssoc k v l → p ∈ l ∨ p = (k, v) := by
  intro l
  induction l with
  | nil => intro p h; simp [updAssoc] at h
  | cons hd tl ih =>
    obtain ⟨k', v'⟩ := hd
    intro p h
    by_cases h1 : k' = k
    · subst h1
      simp [updAssoc] at h
      rcases h with h | h
      · right; exact h
      · left; exact List.mem_cons_of_mem _ h
    · simp [updAssoc, h1] at h
      rcases h with h | h
      · left; simp [h]
      · rcases ih p h with h2 | h2
        · left; exact List.mem_cons_of_mem _ h2
        · right; exact h2

theorem mem_eraseAssoc {α : Type} {k : String} :
    ∀ {l : List (String × α)} (p : String × α), p ∈ eraseAssoc k l → p ∈ l := by
  intro l
  induction l with
  | nil => intro p h; simp [eraseAssoc] at h
  | cons hd tl ih =>
    obtain ⟨k', v'⟩ := hd
    intro p h
    by_cases h1 : k' = k
    · subst h1
      simp [eraseAssoc] at h
      exact List.mem_cons_of_mem _ h
    · simp [eraseAssoc, h1] at h
      rcases h with h | h
      · simp [h]
      · exact List.mem_cons_of_mem _ (ih p h)

theorem alookup_eraseAssoc_ne {α : Type} {k j : String} (hne : j ≠ k) :
    ∀ l : List (String × α), alookup j (eraseAssoc k l) = alookup j l := by
  intro l
  induction l with
  | nil => simp [eraseAssoc]
  | cons hd tl ih =>
    obtain ⟨k', v'⟩ := hd
    by_cases h1 : k' = k
    · subst h1
      have : ¬ k' = j := fun h => hne (h.symm)
      simp [eraseAssoc, alookup, this]
    · by_cases h2 : k' = j
      · subst h2; simp [eraseAssoc, alookup, h1]
      · simp [eraseAssoc, alookup, h1, h2, ih]

theorem alookup_append_of_some {α : Type} {j : String} {u : α} {l1 : List (String × α)}
    (l2 : List (String × α)) (h : alookup j l1 = some u) : alookup j (l1 ++ l2) = some u := by
  induction l1 with
  | nil => simp [alookup] at h
  | cons hd tl ih =>
    obtain ⟨k', v'⟩ := hd
    by_cases h1 : k' = j
    · subst h1; simp [alookup] at h ⊢; exact h
    · simp [alookup, h1] at h ⊢; exact ih h

theorem alookup_append_of_none {α : Type} {j : String} {l1 : List (String × α)}
    (l2 : List (String × α)) (h : alookup j l1 = none) :
    alookup j (l1 ++ l2) = alookup j l2 := by
  induction l1 with
  | nil => simp
  | cons hd tl ih =>
    obtain ⟨k', v'⟩ := hd
    by_cases h1 : k' = j
    · subst h1; simp [alookup] at h
    · simp [alookup, h1] at h ⊢; exact ih h

theorem mem_putAssoc {α : Type} {k : String} {v : α} {l : List (String × α)}
    (p : String × α) (h : p ∈ putAssoc k v l) : p ∈ l ∨ p = (k, v) := by
  unfold putAssoc at h
  by_cases h1 : (alookup k l).isSome
  · rw [if_pos h1] at h
    exact mem_updAssoc p h
  · rw [if_neg h1] at h
    rcases List.mem_append.mp h with h2 | h2
    · left; exact h2
    · right; simpa using h2

theorem cancel_job_tasks (tid : String) (s : SysState) :
    (cancel_job tid s).1.tasks = s.tasks := by
  unfold cancel_job
  rcases h : alookup tid s.jobs with _ | js
  · simp
  · cases js <;> simp

theorem cancel_job_reports (tid : String) (s : SysState) :
    (cancel_job tid s).1.reports = s.reports := by
  unfold cancel_job
  rcases h : alookup tid s.jobs with _ | js
  · simp
  · cases js <;> simp

/-! ## The score extractor: claims C2, C3, C4 -/

theorem extractCats_keys_sublist (lines : List (List Char)) :
    ∀ ps : List (String × List (List String)),
      List.Sublist ((extractCats lines ps).map Prod.fst) (ps.map Prod.fst) := by
  intro ps
  induction ps with
  | nil => simp [extractCats]
  | cons hd tl ih =>
    obtain ⟨cat, pl⟩ := hd
    unfold extractCats
    rcases tryPatterns pl lines with _ | v
    · exact List.Sublist.cons _ ih
    · exact List.Sublist.cons₂ _ ih

/-- C2 (counterexample): on the empty string the extractor returns the
empty mapping — there is no `overall` key at all, contradicting both
the guaranteed `overall` entry and the `{overall: 0}` fallback the
claim states. -/
theorem C2_counterexample :
    alookup "overall" (extract_scores_from_markdown "") = none ∧
    extract_scores_from_markdown "" = [] := ⟨rfl, rfl⟩

/-- C2 (amended): the Score Extractor is pure and total by
construction — for every input string it returns a mapping whose keys
form a subsequence of the fixed category table `overall, code_quality,
maintainability, documentation, performance`; but when no pattern
matches it returns the empty mapping, with no `overall` entry and no
`{overall: 0}` fallback. -/
theorem C2_amended_keys :
    ∀ s : String,
      List.Sublist ((extract_scores_from_markdown s).map Prod.fst)
        ["overall", "code_quality", "maintainability", "documentation", "performance"] := by
  intro s
  exact extractCats_keys_sublist _ scorePatterns

/-- C3 (counterexample): on the exact input
`"Security | 8/10 |\nReadability | 6/10 |\nOverall | 7/10 |"` the
extractor finds neither a `security` nor an `overall` score — the
claimed mapping `{security: 8.0, readability: 6.0, overall: 7.0}` is
not produced. -/
theorem C3_counterexample :
    alookup "security"
      (extract_scores_from_markdown "Security | 8/10 |\nReadability | 6/10 |\nOverall | 7/10 |")
        = none ∧
    alookup "overall"
      (extract_scores_from_markdown "Security | 8/10 |\nReadability | 6/10 |\nOverall | 7/10 |")
        = none := ⟨rfl, rfl⟩

/-- C3 (amended): on the synthetic table
`"Security | 8/10 |\nReadability | 6/10 |\nOverall | 7/10 |"` the
extractor returns the empty mapping: its patterns anchor on keyword
chains such as `overall…score` and `code…quality` and know no
`security` or `readability` category, so pipe-table rows in
`<category> | <n>/10 |` form match nothing. -/
theorem C3_amended_empty :
    extract_scores_from_markdown "Security | 8/10 |\nReadability | 6/10 |\nOverall | 7/10 |"
      = [] := rfl

/-- C4 (counterexample): on `"Security | 4/10 |\nTesting | 6/10 |"`
the markdown extractor produces no `overall` entry at all (the claim
demands `overall == 5.0`); it never synthesizes a mean. -/
theorem C4_counterexample :
    alookup "overall" (extract_scores_from_markdown "Security | 4/10 |\nTesting | 6/10 |")
      = none := rfl

/-- C4 (amended): mean synthesis lives only in the dict-based
`extract_scores` of `api/app/worker.py`: when the analysis dict has no
`overall` sub-dict, at least one category sub-dict was collected, and
the collected scores are numeric with sum `S`, the result appends
`overall = S / count`, the arithmetic mean.  The markdown extractor
applied to the claim's string `"Security | 4/10 |\nTesting | 6/10 |"`
extracts nothing, so no mean and no `overall` appears there. -/
theorem C4_amended_mean (entries : List (String × PyVal)) (S : ℚ)
    (h1 : noOverallDict entries) (h2 : catScores entries ≠ [])
    (h3 : sumNums ((catScores entries).map Prod.snd) = some S) :
    extract_scores (.dict entries)
      = .ok (catScores entries ++
          [("overall", .num (S / ((catScores entries).length : ℚ)))]) ∧
    extract_scores_from_markdown "Security | 4/10 |\nTesting | 6/10 |" = [] := by
  constructor
  · unfold extract_scores
    rcases ho : alookup "overall" entries with _ | v
    · simp only [ho]
      rw [if_pos (List.length_pos.mpr h2), h3]
    · cases v with
      | dict d => exact absurd ho (h1 d)
      | num q => simp only [ho]; rw [if_pos (List.length_pos.mpr h2), h3]
      | str v => simp only [ho]; rw [if_pos (List.length_pos.mpr h2), h3]
      | pyNone => simp only [ho]; rw [if_pos (List.length_pos.mpr h2), h3]
      | other => simp only [ho]; rw [if_pos (List.length_pos.mpr h2), h3]
  · rfl

/-- Witness for C4: the claim's own example, fed to the dict-based
extractor as category sub-dicts, yields `overall = 10 / 2 = 5`. -/
theorem C4_amended_mean_witness :
    extract_scores (.dict c4entries)
      = .ok (catScores c4entries ++
          [("overall", .num ((10 : ℚ) / ((catScores c4entries).length : ℚ)))]) ∧
    extract_scores_from_markdown "Security | 4/10 |\nTesting | 6/10 |" = [] :=
  C4_amended_mean c4entries 10
    (by intro d hd; simp [c4entries, alookup] at hd)
    (by simp [catScores, c4entries, categoriesLegacy, alookup, getScoreField])
    (by simp [catScores, c4entries, categoriesLegacy, alookup, getScoreField, sumNums]; norm_num)

/-! ## Worker-pipeline lemmas and the state-machine claims -/

/-- Updating one row with a `TaskOK` value preserves the table invariant. -/
theorem TasksOK_updAssoc {l : List (String × Task)} {k : String} {v : Task}
    (h : TasksOK l) (hOK : TaskOK v) : TasksOK (updAssoc k v l) := by
  intro p hp
  rcases mem_updAssoc p hp with h2 | h2
  · exact h p h2
  · rw [h2]; exact hOK

/-- Combined characterization of one packages-worker body run: on any
reported exception the task row survives with progress below 100; the
fetch and analysis adapters are each invoked at most once; any
analysis invocation receives exactly the coerced temperature; and the
run preserves the C1 invariant. -/
theorem worker_body_facts (env : Env) (st : Settings) (tid url : String)
    (opts : List (String × PyVal)) (task1 : Task) (s1 : SysState)
    (hst : task1.status = .in_progress) (h10 : task1.progress = 10)
    (hT : alookup tid s1.tasks = some task1) :
    (∀ e, (worker_body env st tid url opts task1 s1).2.2 = some e →
       ∃ t2, alookup tid (worker_body env st tid url opts task1 s1).1.tasks = some t2 ∧
         t2.progress ≠ 100) ∧
    (worker_body env st tid url opts task1 s1).2.1.fetchCalls ≤ 1 ∧
    (worker_body env st tid url opts task1 s1).2.1.analyzeCalls ≤ 1 ∧
    (∀ q, (worker_body env st tid url opts task1 s1).2.1.analyzeTemp = some q →
       q = coerce_temperature opts st.TEMPERATURE) ∧
    (C1Inv s1 → C1Inv (worker_body env st tid url opts task1 s1).1) := by
  cases hw : worker_body env st tid url opts task1 s1 with
  | mk s2 rest =>
    obtain ⟨tr, err⟩ := rest
    unfold worker_body at hw
    rcases hf : env.fetch url with e0 | ⟨rname, rdata⟩ <;> rw [hf] at hw <;> dsimp only at hw
    · simp only [Prod.mk.injEq] at hw
      obtain ⟨rfl, rfl, rfl⟩ := hw
      exact ⟨fun e _ => ⟨task1, hT, by omega⟩, by simp, by simp, by simp, fun h => h⟩
    · rcases rdata with _ | rd <;> dsimp only at hw
      · simp only [Prod.mk.injEq] at hw
        obtain ⟨rfl, rfl, rfl⟩ := hw
        exact ⟨fun e _ => ⟨task1, hT, by omega⟩, by simp, by simp, by simp, fun h => h⟩
      · by_cases hc : rd.content = ""
        · rw [if_pos hc] at hw
          simp only [Prod.mk.injEq] at hw
          obtain ⟨rfl, rfl, rfl⟩ := hw
          exact ⟨fun e _ => ⟨task1, hT, by omega⟩, by simp, by simp, by simp, fun h => h⟩
        · rw [if_neg hc] at hw
          by_cases hd : rd.content = "" ∨ hasSub "Error fetching repository".toList rd.content.toList
          · rw [if_pos hd] at hw
            simp only [Prod.mk.injEq] at hw
            obtain ⟨rfl, rfl, rfl⟩ := hw
            refine ⟨fun e _ => ⟨_, alookup_updAssoc_self hT, by simp⟩,
              by simp, by simp, by simp, fun h => TasksOK_updAssoc h ⟨by simp [hst], by simp [hst]⟩⟩
          · rw [if_neg hd] at hw
            by_cases hk : st.GOOGLE_API_KEY = "" ∨ st.GOOGLE_API_KEY = "your_gemini_api_key_here"
            · rw [if_pos hk] at hw
              simp only [Prod.mk.injEq] at hw
              obtain ⟨rfl, rfl, rfl⟩ := hw
              refine ⟨fun e _ => ⟨_, alookup_updAssoc_self hT, by simp⟩,
                by simp, by simp, by simp, fun h => TasksOK_updAssoc h ⟨by simp [hst], by simp [hst]⟩⟩
            · rw [if_neg hk] at hw
              rcases hp : resolve_prompt opts with ep | pp <;> rw [hp] at hw <;> dsimp only at hw
              · simp only [Prod.mk.injEq] at hw
                obtain ⟨rfl, rfl, rfl⟩ := hw
                refine ⟨fun e _ => ⟨_, alookup_updAssoc_self (alookup_updAssoc_self hT), by simp⟩,
                  by simp, by simp, by simp,
                  fun h => TasksOK_updAssoc (TasksOK_updAssoc h ⟨by simp [hst], by simp [hst]⟩)
                    ⟨by simp [hst], by simp [hst]⟩⟩
              · rcases ha : env.analyze (resolve_repo_name env url rname) rd.content
                    (.str pp) (resolve_model opts st).1 (coerce_temperature opts st.TEMPERATURE)
                  with ea | analysis <;> rw [ha] at hw <;> dsimp only at hw
                · simp only [Prod.mk.injEq] at hw
                  obtain ⟨rfl, rfl, rfl⟩ := hw
                  refine ⟨fun e _ => ⟨_, alookup_updAssoc_self (alookup_updAssoc_self hT), by simp⟩,
                    by simp, by simp, fun q hq => by simpa using hq.symm,
                    fun h => TasksOK_updAssoc (TasksOK_updAssoc h ⟨by simp [hst], by simp [hst]⟩)
                      ⟨by simp [hst], by simp [hst]⟩⟩
                · rcases hx : to_analysis_text env analysis with ex | atext <;>
                    rw [hx] at hw <;> dsimp only at hw
                  · simp only [Prod.mk.injEq] at hw
                    obtain ⟨rfl, rfl, rfl⟩ := hw
                    refine ⟨fun e _ => ⟨_, alookup_updAssoc_self
                        (alookup_updAssoc_self (alookup_updAssoc_self hT)), by simp⟩,
                      by simp, by simp, fun q hq => by simpa using hq.symm,
                      fun h => TasksOK_updAssoc (TasksOK_updAssoc
                        (TasksOK_updAssoc h ⟨by simp [hst], by simp [hst]⟩)
                        ⟨by simp [hst], by simp [hst]⟩) ⟨by simp [hst], by simp [hst]⟩⟩
                  · by_cases hr : (alookup tid s1.reports).isSome = true
                    · rw [if_pos hr] at hw
                      simp only [Prod.mk.injEq] at hw
                      obtain ⟨rfl, rfl, rfl⟩ := hw
                      refine ⟨fun e _ => ⟨_, alookup_updAssoc_self
                          (alookup_updAssoc_self (alookup_updAssoc_self hT)), by simp⟩,
                        by simp, by simp, fun q hq => by simpa using hq.symm,
                        fun h => TasksOK_updAssoc (TasksOK_updAssoc
                          (TasksOK_updAssoc h ⟨by simp [hst], by simp [hst]⟩)
                          ⟨by simp [hst], by simp [hst]⟩) ⟨by simp [hst], by simp [hst]⟩⟩
                    · rw [if_neg hr] at hw
                      simp only [Prod.mk.injEq] at hw
                      obtain ⟨rfl, rfl, rfl⟩ := hw
                      refine ⟨fun e he => absurd he (by simp),
                        by simp, by simp, fun q hq => by simpa using hq.symm,
                        fun h => TasksOK_updAssoc (TasksOK_updAssoc (TasksOK_updAssoc
                          (TasksOK_updAssoc h ⟨by simp [hst], by simp [hst]⟩)
                          ⟨by simp [hst], by simp [hst]⟩) ⟨by simp [hst], by simp [hst]⟩)
                          ⟨by simp, by simp⟩⟩

/-- The claim step writes a `TaskOK` row. -/
theorem claimTask_OK (t : Task) : TaskOK (claimTask t) := by
  constructor
  · simp [claimTask]
  · simp [claimTask]

/-- The full packages pipeline (claim step, body, outer handler)
preserves the C1 invariant, calls each adapter at most once, and
passes only the coerced temperature to the analysis adapter. -/
theorem worker_run_facts (env : Env) (st : Settings) (tid url : String)
    (opts : List (String × PyVal)) (s : SysState) :
    (C1Inv s → C1Inv (analyze_repository_async env st tid url opts s).1) ∧
    (analyze_repository_async env st tid url opts s).2.fetchCalls ≤ 1 ∧
    (analyze_repository_async env st tid url opts s).2.analyzeCalls ≤ 1 ∧
    (∀ q, (analyze_repository_async env st tid url opts s).2.analyzeTemp = some q →
       q = coerce_temperature opts st.TEMPERATURE) := by
  unfold analyze_repository_async
  rcases hT : alookup tid s.tasks with _ | task <;> dsimp only
  · exact ⟨fun h => h, by simp, by simp, by simp⟩
  · have hT1 : alookup tid (claimState tid task s).tasks = some (claimTask task) :=
      alookup_updAssoc_self hT
    have hfacts := worker_body_facts env st tid url opts (claimTask task)
      (claimState tid task s) rfl rfl hT1
    have hclaim : C1Inv s → C1Inv (claimState tid task s) :=
      fun h => TasksOK_updAssoc h (claimTask_OK task)
    rcases hw : worker_body env st tid url opts (claimTask task) (claimState tid task s)
      with ⟨s2, rest⟩
    obtain ⟨tr, err⟩ := rest
    rw [hw] at hfacts
    dsimp only at hfacts
    rcases err with _ | e <;> dsimp only
    · exact ⟨fun h => hfacts.2.2.2.2 (hclaim h), hfacts.2.1, hfacts.2.2.1, hfacts.2.2.2.1⟩
    · obtain ⟨t2, ht2, hp2⟩ := hfacts.1 e rfl
      by_cases hfc : env.failCommit = true
      · rw [if_pos hfc]
        exact ⟨fun h => hfacts.2.2.2.2 (hclaim h), hfacts.2.1, hfacts.2.2.1, hfacts.2.2.2.1⟩
      · rw [if_neg hfc, ht2]
        dsimp only
        refine ⟨fun h => TasksOK_updAssoc (hfacts.2.2.2.2 (hclaim h)) ⟨by simp [hp2], by simp⟩,
          hfacts.2.1, hfacts.2.2.1, hfacts.2.2.2.1⟩

/-- Every operation preserves the C1 invariant. -/
theorem step_C1 (s : SysState) (op : Op) (hInv : C1Inv s) : C1Inv (step s op) := by
  cases op with
  | worker env st tid url opts => exact (worker_run_facts env st tid url opts s).1 hInv
  | submit st uid tid url opts =>
    unfold step submit_analysis
    dsimp only
    by_cases hex : (alookup tid s.tasks).isSome = true
    · rw [if_pos hex]; exact hInv
    · rw [if_neg hex]
      intro p hp
      dsimp only at hp
      rcases List.mem_append.mp hp with h2 | h2
      · exact hInv p h2
      · have : p = (tid, _) := List.mem_singleton.mp h2
        rw [this]
        constructor
        · simp
        · simp
  | cancel tid uid =>
    unfold step cancel_task
    dsimp only
    rcases hg : get_task tid uid s with _ | t <;> dsimp only
    · exact hInv
    · by_cases ht : t.status = .completed ∨ t.status = .failed
      · rw [if_pos ht]; exact hInv
      · rw [if_neg ht]
        dsimp only
        have halo : alookup tid s.tasks = some t := by
          unfold get_task at hg
          rcases h0 : alookup tid s.tasks with _ | t0 <;> rw [h0] at hg <;> dsimp only at hg
          · exact absurd hg (by simp)
          · by_cases hu : t0.user_id = uid
            · rw [if_pos hu] at hg
              exact hg
            · rw [if_neg hu] at hg
              exact absurd hg (by simp)
        have hTok := hInv _ (alookup_mem halo)
        have hnc : ¬ t.status = .completed := fun h => ht (Or.inl h)
        have hnp : t.progress ≠ 100 := fun h => hnc (hTok.1.mp h)
        intro p hp
        dsimp only at hp
        rw [cancel_job_tasks] at hp
        rcases mem_updAssoc p hp with h2 | h2
        · exact hInv p h2
        · rw [h2]
          constructor
          · simp [hnp]
          · simp
  | delete tid uid =>
    unfold step delete_task
    dsimp only
    rcases hg : get_task tid uid s with _ | t <;> dsimp only
    · exact hInv
    · intro p hp
      dsimp only at hp
      by_cases hs2 : t.status = .pending ∨ t.status = .in_progress
      · rw [if_pos hs2, cancel_job_tasks] at hp
        exact hInv p (mem_eraseAssoc p hp)
      · rw [if_neg hs2] at hp
        exact hInv p (mem_eraseAssoc p hp)

/-- The C1 invariant is inductive along any operation sequence. -/
theorem foldl_C1 : ∀ (ops : List Op) (s : SysState), C1Inv s → C1Inv (List.foldl step s ops) := by
  intro ops
  induction ops with
  | nil => intro s h; exact h
  | cons op tl ih => intro s h; exact ih _ (step_C1 s op h)

/-- The empty store satisfies the invariant. -/
theorem C1Inv_init : C1Inv initState := by
  intro p hp
  simp [initState] at hp

/-- C1 (amended): at every reachable state, `progress = 100` iff
`status = completed`, and `status = failed` implies `error_message` is
non-null.  The claimed converse — non-null `error_message` implies
`failed` — is false, because neither the claim step nor the completion
step of a worker run clears an old `error_message` (see
`C1_counterexample`). -/
theorem C1_amended_invariant : ∀ ops : List Op, C1Inv (runOps ops) :=
  fun ops => foldl_C1 ops initState C1Inv_init

/-- Witness for C1: the invariant instantiated at the concrete
terminal task of `c1ops`. -/
theorem C1_amended_invariant_witness : TaskOK c1task :=
  C1_amended_invariant c1ops ("t1", c1task)
    (by rw [show (runOps c1ops).tasks = [("t1", c1task)] from rfl]
        exact List.mem_singleton.mpr rfl)

/-- C1 (counterexample): after submit, a fetch-failing worker run and
a successful worker re-run, the task is `completed` while the stale
`error_message` of the failed run is still set — refuting
`error_message != null ⇔ status == failed` at a reachable state. -/
theorem C1_counterexample :
    Reachable (runOps c1ops) ∧ ¬ C1ClaimInv (runOps c1ops) := by
  refine ⟨⟨c1ops, rfl⟩, fun h => ?_⟩
  have hm : ("t1", c1task) ∈ (runOps c1ops).tasks := by
    rw [show (runOps c1ops).tasks = [("t1", c1task)] from rfl]
    exact List.mem_singleton.mpr rfl
  have h2 := (h ("t1", c1task) hm).2
  have h3 : c1task.status = .failed := h2.mp (by simp [c1task])
  simp [c1task] at h3

/-- C5: when the body of a worker run on an existing task raises `e`,
the single outer handler marks the task `failed` with `error_message =
e` (when the store is reachable), swallows its own commit failure
otherwise (returning the body's state — the pipeline itself is a total
function and never raises), and neither fetch nor analysis is retried:
each adapter is invoked at most once in the whole run. -/
theorem C5_outer_handler (env : Env) (st : Settings) (tid url : String)
    (opts : List (String × PyVal)) (s : SysState) (task : Task) (e : String)
    (hT : alookup tid s.tasks = some task)
    (herr : (worker_body env st tid url opts (claimTask task) (claimState tid task s)).2.2
      = some e) :
    (env.failCommit = false →
       ∃ t', alookup tid (analyze_repository_async env st tid url opts s).1.tasks = some t' ∧
         t'.status = .failed ∧ t'.error_message = some e) ∧
    (env.failCommit = true →
       (analyze_repository_async env st tid url opts s).1 =
         (worker_body env st tid url opts (claimTask task) (claimState tid task s)).1) ∧
    (analyze_repository_async env st tid url opts s).2.fetchCalls ≤ 1 ∧
    (analyze_repository_async env st tid url opts s).2.analyzeCalls ≤ 1 := by
  have hT1 : alookup tid (claimState tid task s).tasks = some (claimTask task) :=
    alookup_updAssoc_self hT
  have hfacts := worker_body_facts env st tid url opts (claimTask task)
    (claimState tid task s) rfl rfl hT1
  unfold analyze_repository_async
  rw [hT]
  dsimp only
  rcases hw : worker_body env st tid url opts (claimTask task) (claimState tid task s)
    with ⟨s2, rest⟩
  obtain ⟨tr, err⟩ := rest
  rw [hw] at hfacts herr
  dsimp only at hfacts herr
  subst herr
  dsimp only
  obtain ⟨t2, ht2, hp2⟩ := hfacts.1 e rfl
  refine ⟨?_, ?_, ?_, ?_⟩
  · intro hfc
    have hfc' : ¬ env.failCommit = true := by simp [hfc]
    rw [if_neg hfc', ht2]
    dsimp only
    exact ⟨_, alookup_updAssoc_self ht2, by simp, by simp⟩
  · intro hfc
    rw [if_pos hfc]
  · by_cases hfc : env.failCommit = true
    · rw [if_pos hfc]
      exact hfacts.2.1
    · rw [if_neg hfc, ht2]
      dsimp only
      exact hfacts.2.1
  · by_cases hfc : env.failCommit = true
    · rw [if_pos hfc]
      exact hfacts.2.2.1
    · rw [if_neg hfc, ht2]
      dsimp only
      exact hfacts.2.2.1

/-- C7 (counterexample): a worker re-run on the completed task of
`c7ops` with a raising fetch moves the task out of its terminal state:
from `completed`/100 to `failed`/10 with a new error message. -/
theorem C7_counterexample :
    ((alookup "t1" (runOps c7ops).tasks).map (fun t => (t.status, t.progress))
       = some (.completed, 100)) ∧
    ((alookup "t1" (step (runOps c7ops) (.worker envFetchRaise st0 "t1" "url1" [])).tasks).map
        (fun t => (t.status, t.progress, t.error_message))
       = some (.failed, 10, some "boom")) := ⟨rfl, rfl⟩

/-- C7 (amended): no operation other than a worker run or the task's
own deletion changes a terminal task: cancel on it is a no-op
returning `none`, any submission leaves its row untouched, and
cancel/delete of other tasks leave it untouched.  The worker pipeline,
however, does not check for terminal states at claim time and does
re-claim such a task (see `C7_counterexample`). -/
theorem C7_amended_nonworker (s : SysState) (tid uid : String) (t : Task)
    (hT : alookup tid s.tasks = some t)
    (hterm : t.status = .completed ∨ t.status = .failed) :
    cancel_task tid uid s = (s, none) ∧
    (∀ (st : Settings) (uid2 tid2 url : String) (opts : List (String × PyVal)),
       alookup tid (submit_analysis st uid2 tid2 url opts s).tasks = some t) ∧
    (∀ tid2 uid2, tid2 ≠ tid →
       alookup tid ((cancel_task tid2 uid2 s).1).tasks = some t ∧
       alookup tid ((delete_task tid2 uid2 s).1).tasks = some t) := by
  refine ⟨?_, ?_, ?_⟩
  · unfold cancel_task get_task
    rw [hT]
    dsimp only
    by_cases hu : t.user_id = uid
    · rw [if_pos hu]
      dsimp only
      rw [if_pos hterm]
    · rw [if_neg hu]
  · intro st uid2 tid2 url opts
    unfold submit_analysis
    by_cases hex : (alookup tid2 s.tasks).isSome = true
    · rw [if_pos hex]; exact hT
    · rw [if_neg hex]
      dsimp only
      exact alookup_append_of_some _ hT
  · intro tid2 uid2 hne
    constructor
    · unfold cancel_task
      rcases hg : get_task tid2 uid2 s with _ | t2 <;> dsimp only
      · exact hT
      · by_cases ht2 : t2.status = .completed ∨ t2.status = .failed
        · rw [if_pos ht2]; exact hT
        · rw [if_neg ht2]
          dsimp only
          rw [alookup_updAssoc, if_neg (Ne.symm hne), cancel_job_tasks]
          exact hT
    · unfold delete_task
      rcases hg : get_task tid2 uid2 s with _ | t2 <;> dsimp only
      · exact hT
      · by_cases ht2 : t2.status = .pending ∨ t2.status = .in_progress
        · rw [if_pos ht2]
          rw [alookup_eraseAssoc_ne (Ne.symm hne), cancel_job_tasks]
          exact hT
        · rw [if_neg ht2]
          rw [alookup_eraseAssoc_ne (Ne.symm hne)]
          exact hT

/-- C8 (counterexample): the legacy pipeline of `api/app/worker.py`
converts the temperature with a bare `float()`: on
`options = {temperature: "abc"}` the `ValueError` propagates to the
outer handler, the task is marked failed with the conversion error,
and the analysis adapter is never invoked — no safe default is
substituted. -/
theorem C8_counterexample :
    ((alookup "t1" (legacy_analyze_repository envAllOk st0 "t1" "url1"
        [("temperature", .str "abc")] sSub).1.tasks).map
      (fun t => (t.status, t.error_message))
      = some (.failed, some "could not convert string to float: abc")) ∧
    (legacy_analyze_repository envAllOk st0 "t1" "url1"
        [("temperature", .str "abc")] sSub).2.analyzeCalls = 0 ∧
    legacy_temperature [("temperature", .str "abc")] st0.TEMPERATURE
      = .error "could not convert string to float: abc" := ⟨rfl, rfl, rfl⟩

/-- C8 (amended): in the packages pipeline every analysis-adapter
invocation receives the coerced temperature, which is always a number:
the configured default when the options entry is missing and `0.2`
when the supplied value fails `float()` conversion (including `None`
and the empty string).  The legacy pipeline lacks this guard (see
`C8_counterexample`). -/
theorem C8_amended_coercion :
    (∀ (env : Env) (st : Settings) (tid url : String) (opts : List (String × PyVal))
       (s : SysState) (q : ℚ),
       (analyze_repository_async env st tid url opts s).2.analyzeTemp = some q →
       q = coerce_temperature opts st.TEMPERATURE) ∧
    (∀ (opts : List (String × PyVal)) (stT : ℚ),
       alookup "temperature" opts = none → coerce_temperature opts stT = stT) ∧
    (∀ (opts : List (String × PyVal)) (stT : ℚ) (v : PyVal) (e : String),
       alookup "temperature" opts = some v → pyFloat v = .error e →
       coerce_temperature opts stT = 0.2) := by
  refine ⟨?_, ?_, ?_⟩
  · intro env st tid url opts s q hq
    exact (worker_run_facts env st tid url opts s).2.2.2 q hq
  · intro opts stT h
    simp [coerce_temperature, h, pyFloat]
  · intro opts stT v e h hf
    rcases v with q | sv | d | _ | _
    · simp [pyFloat] at hf
    · by_cases hsv : sv = ""
      · subst hsv
        simp [coerce_temperature, h]
      · simp [coerce_temperature, h, hsv, hf]
    · simp [coerce_temperature, h, hf]
    · simp [coerce_temperature, h]
    · simp [coerce_temperature, h, hf]

/-- C6: queue-level cancellation of a job that is no longer queued
(started or finished) returns `false` and is the identity on the
state, so the terminal state subsequently reached by the running job
is exactly the one reached without the cancellation attempt. -/
theorem C6_cancel_started (s : SysState) (tid : String) (js : JobStatus)
    (h : alookup tid s.jobs = some js) (hq : js ≠ .queued) :
    cancel_job tid s = (s, false) ∧
    (∀ (env : Env) (st : Settings) (url : String) (opts : List (String × PyVal)),
       analyze_repository_async env st tid url opts (cancel_job tid s).1
         = analyze_repository_async env st tid url opts s) := by
  have h1 : cancel_job tid s = (s, false) := by
    unfold cancel_job
    rw [h]
    cases js with
    | queued => exact absurd rfl hq
    | started => rfl
    | finished => rfl
    | canceled => rfl
  exact ⟨h1, fun env st url opts => by rw [h1]⟩

/-- C10: cancelling an owned pending or in-progress task immediately
sets `status = failed` and `error_message = "Canceled by user"` and
returns the task — for every state, hence regardless of whether the
queue-level job cancellation succeeded or returned false. -/
theorem C10_cancel_force_fail (s : SysState) (tid uid : String) (t : Task)
    (hT : alookup tid s.tasks = some t) (hu : t.user_id = uid)
    (hs : t.status = .pending ∨ t.status = .in_progress) :
    (cancel_task tid uid s).2
      = some { t with status := .failed, error_message := some "Canceled by user" } ∧
    alookup tid (cancel_task tid uid s).1.tasks
      = some { t with status := .failed, error_message := some "Canceled by user" } := by
  have hterm : ¬ (t.status = .completed ∨ t.status = .failed) := by
    rcases hs with h2 | h2 <;> rw [h2] <;> intro hc <;> rcases hc with hc | hc <;> simp at hc
  unfold cancel_task get_task
  rw [hT]
  dsimp only
  rw [if_pos hu]
  dsimp only
  rw [if_neg hterm]
  dsimp only
  refine ⟨rfl, ?_⟩
  rw [cancel_job_tasks]
  exact alookup_updAssoc_self hT

/-- An owner-filtered report lookup yields the stored row and the
ownership fact. -/
theorem get_report_destruct {tid uid : String} {s : SysState} {r : Report}
    (h : get_report tid uid s = some r) :
    alookup tid s.reports = some r ∧ r.user_id = uid := by
  unfold get_report at h
  rcases h0 : alookup tid s.reports with _ | r0 <;> rw [h0] at h <;> dsimp only at h
  · exact absurd h (by simp)
  · by_cases hu : r0.user_id = uid
    · rw [if_pos hu] at h
      obtain rfl : r0 = r := Option.some.inj h
      exact ⟨rfl, hu⟩
    · rw [if_neg hu] at h
      exact absurd h (by simp)

/-- C9: publication is idempotent.  On an already published report
the endpoint returns the stored hash without invoking the IPFS service
or changing state; and for every state, invoking publish twice in a
row yields the same final state and the same hash as invoking it
once. -/
theorem C9_publish_idempotent (env : Env) (tid uid : String) (s : SysState) :
    (∀ (r : Report) (h : String), get_report tid uid s = some r → r.ipfs_hash = some h →
       publish_report env tid uid s = (s, some (summaryOf tid r), false)) ∧
    (publish_report env tid uid (publish_report env tid uid s).1).1
      = (publish_report env tid uid s).1 ∧
    hashOfRes ((publish_report env tid uid (publish_report env tid uid s).1).2.1)
      = hashOfRes ((publish_report env tid uid s).2.1) := by
  constructor
  · intro r hh hg hr
    unfold publish_report
    rw [hg]
    dsimp only
    rw [hr]
  · rcases hg : get_report tid uid s with _ | r
    · have h1 : publish_report env tid uid s = (s, none, false) := by
        unfold publish_report
        rw [hg]
      rw [h1]
      dsimp only
      rw [h1]
      exact ⟨rfl, rfl⟩
    · obtain ⟨halo, huid⟩ := get_report_destruct hg
      rcases hh : r.ipfs_hash with _ | h
      · rcases hi : env.ipfs r.content with _ | h2
        · have h1 : publish_report env tid uid s = (s, some (summaryOf tid r), true) := by
            unfold publish_report publish_to_ipfs
            rw [hg]
            dsimp only
            rw [hh]
            dsimp only
            rw [hi]
          rw [h1]
          dsimp only
          rw [h1]
          exact ⟨rfl, rfl⟩
        · have h1 : publish_report env tid uid s = ({ s with reports := updAssoc tid { r with ipfs_hash := some h2, published_at := some s.now } s.reports }, some (summaryOf tid { r with ipfs_hash := some h2, published_at := some s.now }), true) := by
            unfold publish_report publish_to_ipfs
            rw [hg]
            dsimp only
            rw [hh]
            dsimp only
            rw [hi]
          have hg2 : get_report tid uid ({ s with reports := updAssoc tid { r with ipfs_hash := some h2, published_at := some s.now } s.reports }) = some { r with ipfs_hash := some h2, published_at := some s.now } := by
            unfold get_report
            rw [show alookup tid (updAssoc tid { r with ipfs_hash := some h2, published_at := some s.now } s.reports) = some { r with ipfs_hash := some h2, published_at := some s.now } from alookup_updAssoc_self halo]
            dsimp only
            rw [if_pos huid]
          have h3 : publish_report env tid uid (publish_report env tid uid s).1 = ((publish_report env tid uid s).1, some (summaryOf tid { r with ipfs_hash := some h2, published_at := some s.now }), false) := by
            rw [h1]
            unfold publish_report
            rw [hg2]
          rw [h3, h1]
          exact ⟨rfl, rfl⟩
      · have h1 : publish_report env tid uid s = (s, some (summaryOf tid r), false) := by
          unfold publish_report
          rw [hg]
          dsimp only
          rw [hh]
        rw [h1]
        dsimp only
        rw [h1]
        exact ⟨rfl, rfl⟩

/-- Witness for C5: a fetch that returns no repository data on the
freshly submitted task. -/
theorem C5_outer_handler_witness :
    (envFetchFail.failCommit = false →
       ∃ t', alookup "t1" (analyze_repository_async envFetchFail st0 "t1" "url1" [] sSub).1.tasks
           = some t' ∧ t'.status = .failed ∧
           t'.error_message = some "Failed to fetch repository: url1") ∧
    (envFetchFail.failCommit = true →
       (analyze_repository_async envFetchFail st0 "t1" "url1" [] sSub).1 =
         (worker_body envFetchFail st0 "t1" "url1" [] (claimTask subTask)
           (claimState "t1" subTask sSub)).1) ∧
    (analyze_repository_async envFetchFail st0 "t1" "url1" [] sSub).2.fetchCalls ≤ 1 ∧
    (analyze_repository_async envFetchFail st0 "t1" "url1" [] sSub).2.analyzeCalls ≤ 1 :=
  C5_outer_handler envFetchFail st0 "t1" "url1" [] sSub subTask
    "Failed to fetch repository: url1" rfl rfl

/-- Witness for C6: a started job. -/
theorem C6_cancel_started_witness :
    cancel_job "t1" sStarted = (sStarted, false) ∧
    analyze_repository_async envAllOk st0 "t1" "url1" [] (cancel_job "t1" sStarted).1
      = analyze_repository_async envAllOk st0 "t1" "url1" [] sStarted := by
  have h := C6_cancel_started sStarted "t1" .started rfl (by decide)
  exact ⟨h.1, h.2 envAllOk st0 "url1" []⟩

/-- Witness for C7: the completed task of `c7ops` survives a cancel
aimed at it and a delete aimed at another id. -/
theorem C7_amended_nonworker_witness :
    cancel_task "t1" "u" (runOps c7ops) = (runOps c7ops, none) ∧
    alookup "t1" ((delete_task "t2" "x" (runOps c7ops)).1).tasks = some c7task := by
  have h := C7_amended_nonworker (runOps c7ops) "t1" "u" c7task rfl (Or.inl rfl)
  exact ⟨h.1, (h.2.2 "t2" "x" (by decide)).2⟩

/-- Witness for C8: coercion evaluated on a run that reaches the
adapter, on an absent entry and on a non-numeric entry. -/
theorem C8_amended_coercion_witness :
    ((1 : ℚ) = coerce_temperature [] st0.TEMPERATURE) ∧
    coerce_temperature [] 7 = 7 ∧
    coerce_temperature [("temperature", .str "abc")] 7 = 0.2 := by
  refine ⟨?_, ?_, ?_⟩
  · exact C8_amended_coercion.1 envAllOk st0 "t1" "url1" [] sSub 1 rfl
  · exact C8_amended_coercion.2.1 [] 7 rfl
  · exact C8_amended_coercion.2.2 [("temperature", .str "abc")] 7 (.str "abc")
      "could not convert string to float: abc" rfl rfl

/-- Witness for C9: an already published report — no republication,
the old hash is returned, and the double invocation collapses. -/
theorem C9_publish_idempotent_witness :
    publish_report envAllOk "t1" "u" sPub = (sPub, some (summaryOf "t1" pubReport), false) ∧
    (publish_report envAllOk "t1" "u" (publish_report envAllOk "t1" "u" sPub).1).1
      = (publish_report envAllOk "t1" "u" sPub).1 ∧
    hashOfRes ((publish_report envAllOk "t1" "u" (publish_report envAllOk "t1" "u" sPub).1).2.1)
      = hashOfRes ((publish_report envAllOk "t1" "u" sPub).2.1) := by
  have h := C9_publish_idempotent envAllOk "t1" "u" sPub
  exact ⟨h.1 pubReport "QmOld" rfl rfl, h.2.1, h.2.2⟩

/-- Witness for C10: cancelling the freshly submitted task. -/
theorem C10_cancel_force_fail_witness :
    (cancel_task "t1" "u" sSub).2
      = some { subTask with status := .failed, error_message := some "Canceled by user" } ∧
    alookup "t1" (cancel_task "t1" "u" sSub).1.tasks
      = some { subTask with status := .failed, error_message := some "Canceled by user" } :=
  C10_cancel_force_fail sSub "t1" "u" subTask rfl rfl (Or.inl rfl)

end CeloAgent
